import Mathlib

/-!
Verification of the traaitt networking/wallet sources: a shallow embedding of
the EventLock synchronization primitive, the cooperative Event/Dispatcher
model it relies on, the TcpConnector resource discipline, and the wallet
parameter-validation layer (ValidateParameters), together with theorems
settling the frozen claims about them.
-/

namespace Traaitt

/-! ## Error codes

The source's Error type couples an error code enum with an optional human
readable message; equality comparisons (error != SUCCESS) look only at the
code, so the embedding keeps just the code. -/

inductive ErrorCode
  | SUCCESS
  | HASH_WRONG_LENGTH
  | HASH_INVALID
  | PAYMENT_ID_WRONG_LENGTH
  | PAYMENT_ID_INVALID
  | AMOUNT_UGLY
  | FEE_TOO_SMALL
  | WILL_OVERFLOW
  | NOT_ENOUGH_BALANCE
  | CONFLICTING_PAYMENT_IDS
  | MIXIN_TOO_SMALL
  | MIXIN_TOO_BIG
  | NO_DESTINATIONS_GIVEN
  | AMOUNT_IS_ZERO
deriving DecidableEq, Repr

open ErrorCode

/-! ## validateHash / validatePaymentID (ValidateParameters.cpp)

The regex used by both is "[a-zA-Z0-9]{64}" under full-match semantics; once
the length-64 check has passed, a full match is exactly: every character is
an ASCII letter or digit. -/

/-- Character class of the regex [a-zA-Z0-9]. -/
def isAlnumChar (c : Char) : Bool :=
  (('a' ≤ c && c ≤ 'z') || ('A' ≤ c && c ≤ 'Z') || ('0' ≤ c && c ≤ '9'))

/-- Embedding of validateHash: wrong length, then regex check, then SUCCESS. -/
def validateHash (hash : String) : ErrorCode :=
  if hash.length ≠ 64 then HASH_WRONG_LENGTH
  else if !(hash.toList.all isAlnumChar) then HASH_INVALID
  else SUCCESS

/-- Embedding of validatePaymentID: empty is accepted, then wrong length,
then the same regex check as validateHash. -/
def validatePaymentID (paymentID : String) : ErrorCode :=
  if paymentID.isEmpty then SUCCESS
  else if paymentID.length ≠ 64 then PAYMENT_ID_WRONG_LENGTH
  else if !(paymentID.toList.all isAlnumChar) then PAYMENT_ID_INVALID
  else SUCCESS

/-- A 64-character alphanumeric, non-hexadecimal test string (all letter z). -/
def sixtyFourZs : String :=
  "zzzzzzzzzzzzzzzzzzzzzzzzzzzzzzzzzzzzzzzzzzzzzzzzzzzzzzzzzzzzzzzz"

/-! ## validateOptimizeTarget (ValidateParameters.cpp)

The source renders the target with std::to_string, takes the leading decimal
digit, and multiplies by pow(10, strTarget.length() - 1). For every uint64
input the double computation digit * pow(10, k) with k <= 19 and digit <= 9
is exact (digit * 5^k < 2^53, and for k = 19 the leading digit is 1), so the
faithful embedding computes the same value in exact natural arithmetic. The
decimal string is embedded as its list of digit values, most significant
first, as std::to_string produces it. -/

/-- Little-endian decimal digits of n, computed with explicit fuel so the
definition is structural and kernel-evaluable; fuel n is always enough. -/
def decimalDigitsRev (fuel n : Nat) : List Nat :=
  match fuel with
  | 0 => []
  | fuel + 1 => if n = 0 then [] else n % 10 :: decimalDigitsRev fuel (n / 10)

/-- Embedding of std::to_string(n) as the list of decimal digit values,
most significant first; to_string(0) is "0". -/
def decimalString (n : Nat) : List Nat :=
  if n = 0 then [0] else (decimalDigitsRev n n).reverse

/-- Embedding of validateOptimizeTarget: absent target is accepted; a present
target is compared against leading-digit * 10 ^ (length - 1). -/
def validateOptimizeTarget (optimizeTarget : Option Nat) : ErrorCode :=
  match optimizeTarget with
  | none => SUCCESS
  | some target =>
    let strTarget := decimalString target
    let validTarget := strTarget.headD 0 * 10 ^ (strTarget.length - 1)
    if target ≠ validTarget then AMOUNT_UGLY
    else SUCCESS

/-! ## validateTransaction (ValidateParameters.cpp)

validateTransaction is an early-return chain over seven checks, in source
order: validateDestinations(destinations),
validateIntegratedAddresses(destinations, paymentID),
validateOurAddresses(subWalletsToTakeFrom, subWallets),
validateAmount(destinations, fee, subWalletsToTakeFrom, subWallets, height),
validateMixin(mixin, height), validatePaymentID(paymentID),
validateOurAddresses({changeAddress}, subWallets). The checks themselves
consult external state (SubWallets, crypto, config), so the embedding of the
dispatch logic is parametrized by the seven results. -/

structure TransactionChecks where
  destinations : ErrorCode
  integratedAddresses : ErrorCode
  sourceAddresses : ErrorCode
  amount : ErrorCode
  mixin : ErrorCode
  paymentID : ErrorCode
  changeAddress : ErrorCode
deriving DecidableEq, Repr

/-- Embedding of validateTransaction's early-return chain over the seven
check results, in the order the source calls them. -/
def validateTransaction (c : TransactionChecks) : ErrorCode :=
  if c.destinations ≠ SUCCESS then c.destinations
  else if c.integratedAddresses ≠ SUCCESS then c.integratedAddresses
  else if c.sourceAddresses ≠ SUCCESS then c.sourceAddresses
  else if c.amount ≠ SUCCESS then c.amount
  else if c.mixin ≠ SUCCESS then c.mixin
  else if c.paymentID ≠ SUCCESS then c.paymentID
  else if c.changeAddress ≠ SUCCESS then c.changeAddress
  else SUCCESS

/-- The seven check results in the order validateTransaction consults them. -/
def checkList (c : TransactionChecks) : List ErrorCode :=
  [c.destinations, c.integratedAddresses, c.sourceAddresses, c.amount,
   c.mixin, c.paymentID, c.changeAddress]

/-- First non-SUCCESS element of a list of check results, SUCCESS if none. -/
def firstFailure : List ErrorCode → ErrorCode
  | [] => SUCCESS
  | e :: rest => if e ≠ SUCCESS then e else firstFailure rest

/-! ## validateAmount (ValidateParameters.cpp)

WalletTypes::FeeType is not under src/: it is a record of three mutually
exclusive discriminator flags with the corresponding values; modelled here
from the spec and from the uses visible in validateAmount. The amounts are
uint64, modelled as Nat with explicit wrap-around where the source can
overflow. -/

structure FeeType where
  isFixedFee : Bool
  isMinimumFee : Bool
  isFeePerByte : Bool
  fixedFee : Nat
  feePerByte : Nat
deriving DecidableEq, Repr

/-- Modelled from the spec: Utilities::getTransactionSum is not under src/;
it is the uint64 (wrapping) sum of the destination amounts. -/
def getTransactionSum (destinations : List (String × Nat)) : Nat :=
  (destinations.map (fun d => d.2)).sum % 2 ^ 64

/-- Modelled from the spec: Utilities::sumWillOverflow is not under src/;
it reports whether the exact sum of the amounts exceeds the uint64 range
(the spec calls this amount-sum overflow of uint64). -/
def sumWillOverflow (amounts : List Nat) : Bool :=
  decide (2 ^ 64 ≤ amounts.sum)

/-- The amounts vector validateAmount builds: the fixed fee first when one is
in use, then the destination amounts, as in the source. -/
def feeAmounts (destinations : List (String × Nat)) (fee : FeeType) : List Nat :=
  (if fee.isFixedFee then [fee.fixedFee] else []) ++ destinations.map (fun d => d.2)

/-- totalAmount as validateAmount computes it: the transaction sum, plus the
fixed fee (uint64 wrapping) when a fixed fee is in use. -/
def totalWithFee (destinations : List (String × Nat)) (fee : FeeType) : Nat :=
  if fee.isFixedFee then (getTransactionSum destinations + fee.fixedFee) % 2 ^ 64
  else getTransactionSum destinations

/-- Embedding of validateAmount. Except.error models the C++ throw of
std::runtime_error; Except.ok models a returned typed Error code.
availableBalance stands for the first component of subWallets->getBalance
and minFeePerByte for the config constant MINIMUM_FEE_PER_BYTE_V1, both of
which live outside src/. -/
def validateAmount (destinations : List (String × Nat)) (fee : FeeType)
    (availableBalance minFeePerByte : Nat) : Except String ErrorCode :=
  if !fee.isFeePerByte && !fee.isFixedFee && !fee.isMinimumFee then
    Except.error "Programmer error: fee type not specified"
  else if fee.isFeePerByte && fee.feePerByte < minFeePerByte then
    Except.ok FEE_TOO_SMALL
  else if sumWillOverflow (feeAmounts destinations fee) then
    Except.ok WILL_OVERFLOW
  else if availableBalance < totalWithFee destinations fee then
    Except.ok NOT_ENOUGH_BALANCE
  else
    Except.ok SUCCESS

/-! ## Event (system/Event)

Modelled from the spec: the Event implementation is not under src/ (only
EventLock.cpp is). An Event is a boolean flag plus a FIFO queue of waiting
contexts; set marks the flag true and resumes every waiter in arrival
order, clear marks it false, get reads the flag, and wait on a true flag
returns immediately while wait on a false flag enqueues the caller and
suspends it. Contexts are identified by Nat ids. -/

structure Event where
  flag : Bool
  waiters : List Nat
deriving DecidableEq, Repr

/-- Non-suspending read of the flag. -/
def Event.get (e : Event) : Bool := e.flag

/-- Marks the flag false; contexts already released are unaffected. -/
def Event.clear (e : Event) : Event := { e with flag := false }

/-- Marks the flag true and resumes every waiting context in FIFO order;
the second component is the list of contexts resumed by this call. -/
def Event.set (e : Event) : Event × List Nat :=
  ({ flag := true, waiters := [] }, e.waiters)

/-- Wait by context ctx: on a true flag returns immediately (second
component false: the caller did not suspend); on a false flag enqueues the
caller at the back and suspends it (second component true). -/
def Event.wait (e : Event) (ctx : Nat) : Event × Bool :=
  if e.flag then (e, false)
  else ({ e with waiters := e.waiters ++ [ctx] }, true)

/-! ## EventLock (EventLock.cpp)

The constructor is: while (!event.get()) { event.wait(); } event.clear();
and the destructor is: event.set(). The constructor's interaction with the
event is recorded as a trace of the calls it makes; obs k abstracts the
value event.get() returns at the k-th check (between checks other contexts
may run and flip the flag, which is why the loop re-checks). -/

inductive EventOp
  | waitOp
  | clearOp
  | setOp
deriving DecidableEq, Repr

/-- Acquisition loop of the EventLock constructor, started at check index k
with the given fuel; returns the trace of Event calls it makes, or none if
the fuel runs out before a check sees a true flag. -/
def eventLockAcquireLoop (obs : Nat → Bool) (k : Nat) : Nat → Option (List EventOp)
  | 0 => none
  | fuel + 1 =>
    if obs k then some [EventOp.clearOp]
    else (eventLockAcquireLoop obs (k + 1) fuel).map (fun t => EventOp.waitOp :: t)

/-- Embedding of the EventLock constructor: the acquisition loop started at
the first check. -/
def eventLockCtor (obs : Nat → Bool) (fuel : Nat) : Option (List EventOp) :=
  eventLockAcquireLoop obs 0 fuel

/-- Embedding of the EventLock destructor: unconditionally event.set().
Returns the event after the call and the contexts the set resumed. -/
def eventLockDtor (e : Event) : Event × List Nat := e.set

/-- Concrete observation sequence for the acquisition witness: the flag
reads false at the first two checks and true at the third. -/
def obsAtTwo (n : Nat) : Bool := n == 2

/-! ## Cooperative scheduling model for EventLock contention (C3)

Modelled from the spec: Dispatcher and Event sources are not under src/.
One Dispatcher runs contexts cooperatively: the front of the ready queue
runs until it suspends or terminates. Each contending context executes the
EventLock discipline from the sources: loop { if get() then { clear();
enter the guarded section } else wait() }, then (inside the guarded
section) suspends once via yield, and on resumption leaves the section and
runs the EventLock destructor, event.set(), which resumes every waiter in
FIFO order, and terminates. A context is represented by its id together
with its continuation phase; terminated contexts leave the queues. -/

inductive CtxPhase
  | acquiring
  | inSection
deriving DecidableEq, Repr

structure DispatcherState where
  flag : Bool
  evWaiters : List Nat
  ready : List (Nat × CtxPhase)
  entered : List Nat
deriving DecidableEq, Repr

/-- One scheduling slice: run the front ready context to its next suspension
or termination. acquiring with a true flag: clear and enter the guarded
section, then yield (go to the back of the ready queue). acquiring with a
false flag: event.wait(), suspend onto the event queue. inSection: leave
the section, event.set() (flag true, all waiters made ready in FIFO order),
terminate. An empty ready queue leaves the state unchanged. -/
def schedStep (s : DispatcherState) : DispatcherState :=
  match s.ready with
  | [] => s
  | (c, ph) :: rest =>
    match ph with
    | CtxPhase.acquiring =>
      if s.flag then
        { s with flag := false,
                 ready := rest ++ [(c, CtxPhase.inSection)],
                 entered := s.entered ++ [c] }
      else
        { s with evWaiters := s.evWaiters ++ [c], ready := rest }
    | CtxPhase.inSection =>
      { s with flag := true,
               ready := rest ++ s.evWaiters.map (fun w => (w, CtxPhase.acquiring)),
               evWaiters := [] }

/-- State with the event free (flag true), no waiter, the pending contexts
all at the top of their acquisition loops in FIFO ready order, and log the
guarded-section entries made so far. -/
def contendState (pending : List Nat) (log : List Nat) : DispatcherState :=
  { flag := true,
    evWaiters := [],
    ready := pending.map (fun c => (c, CtxPhase.acquiring)),
    entered := log }

/-- Number of contexts currently inside the guarded section. -/
def inSectionCount (s : DispatcherState) : Nat :=
  (s.ready.filter (fun p => p.2 == CtxPhase.inSection)).length

/-- Mutual exclusion invariant: at most one context is inside the guarded
section, and none is while the event flag is true. -/
def mutexInv (s : DispatcherState) : Prop :=
  inSectionCount s ≤ 1 ∧ (s.flag = true → inSectionCount s = 0)

/-- Number of scheduling slices for n contending contexts to all pass
through the guarded section: each round costs (waiters + 2) slices. -/
def contendSteps : Nat → Nat
  | 0 => 0
  | n + 1 => contendSteps n + (n + 2)

/-! ## TcpConnector / TcpConnection (platform/windows/system/TcpConnector.h)

Only the header is under src/: it declares the deleted copy operations, the
move operations, the destructor and connect. The behaviours are modelled
from the spec. A connector or connection owns at most one OS resource
(socket), identified by a Nat handle, and a connector carries a Dispatcher
back-reference; none models unbound / moved-from. -/

structure TcpConnection where
  socket : Option Nat
deriving DecidableEq, Repr

structure TcpConnector where
  dispatcher : Option Nat
  resource : Option Nat
deriving DecidableEq, Repr

/-- What the OS reports for a pending connect, or that the waiting context
was interrupted before completion. -/
inductive ConnectOutcome
  | success (socket : Nat)
  | refused (osCode : Nat)
  | timedOut (osCode : Nat)
  | interrupted
deriving DecidableEq, Repr

/-- Typed failures of connect. -/
inductive ConnectError
  | connectionFailed (osCode : Nat)
  | operationCancelled
deriving DecidableEq, Repr

/-- Modelled from the spec: the implementation of
System::TcpConnector::connect is not under src/ (the header declares it).
connect suspends until the OS reports an outcome or the context is
interrupted, and resolves every such outcome to a value: an owning
TcpConnection on success, a typed connection error carrying the OS code on
refusal or timeout, and a cancellation error on interruption. Totality of
the function models that connect never hangs indefinitely. -/
def TcpConnector.connect (outcome : ConnectOutcome) : Except ConnectError TcpConnection :=
  match outcome with
  | ConnectOutcome.success sock => Except.ok { socket := some sock }
  | ConnectOutcome.refused code => Except.error (ConnectError.connectionFailed code)
  | ConnectOutcome.timedOut code => Except.error (ConnectError.connectionFailed code)
  | ConnectOutcome.interrupted => Except.error ConnectError.operationCancelled

/-- Modelled from the spec: the move constructor / move assignment of
TcpConnector are not under src/ (the header declares them; the copy
operations are deleted). Move transfers the OS resource and the Dispatcher
back-reference; the moved-from instance becomes unbound. Returns (source
after the move, destination). -/
def TcpConnector.moveFrom (src : TcpConnector) : TcpConnector × TcpConnector :=
  ({ dispatcher := none, resource := none },
   { dispatcher := src.dispatcher, resource := src.resource })

/-- Modelled from the spec: the destructor releases the held OS resource if
any; on an unbound instance it is a no-op. Returns the handles released. -/
def TcpConnector.destructorReleases (c : TcpConnector) : List Nat :=
  match c.resource with
  | none => []
  | some r => [r]

/-- Modelled from the spec: TcpConnection follows the same move discipline
as TcpConnector. -/
def TcpConnection.moveFrom (src : TcpConnection) : TcpConnection × TcpConnection :=
  ({ socket := none }, { socket := src.socket })

/-- Modelled from the spec: destructor of TcpConnection, a no-op on a
moved-from instance. -/
def TcpConnection.destructorReleases (c : TcpConnection) : List Nat :=
  match c.socket with
  | none => []
  | some r => [r]

/-! ## Theorems -/

/-- Helper: with enough fuel, decimalDigitsRev computes Nat.digits 10. -/
lemma decimalDigitsRev_eq_digits :
    ∀ (fuel n : Nat), n ≤ fuel → decimalDigitsRev fuel n = Nat.digits 10 n := by
  intro fuel
  induction fuel with
  | zero =>
    intro n hn
    have h0 : n = 0 := Nat.le_zero.mp hn
    subst h0
    simp [decimalDigitsRev]
  | succ fuel ih =>
    intro n hn
    by_cases h0 : n = 0
    · subst h0; simp [decimalDigitsRev]
    · have hpos : 0 < n := Nat.pos_of_ne_zero h0
      have hdiv : n / 10 ≤ fuel := by
        have := Nat.div_lt_self hpos (by norm_num : 1 < 10)
        omega
      calc decimalDigitsRev (fuel + 1) n
          = n % 10 :: decimalDigitsRev fuel (n / 10) := by
            simp [decimalDigitsRev, h0]
        _ = n % 10 :: Nat.digits 10 (n / 10) := by rw [ih _ hdiv]
        _ = Nat.digits 10 n :=
            (Nat.digits_def' (by norm_num : (1 : ℕ) < 10) hpos).symm

/-- C9: validateHash and validatePaymentID accept every 64-character
alphanumeric (not only hexadecimal) string; any other length yields the
corresponding wrong-length error, except the empty payment ID, which is
accepted. -/
theorem validateHash_paymentID_alnum64 (s : String) :
    ((s.length = 64 ∧ s.toList.all isAlnumChar = true) →
      validateHash s = SUCCESS ∧ validatePaymentID s = SUCCESS) ∧
    (s.length ≠ 64 →
      validateHash s = HASH_WRONG_LENGTH ∧
      (s ≠ "" → validatePaymentID s = PAYMENT_ID_WRONG_LENGTH)) ∧
    validatePaymentID "" = SUCCESS := by
  refine ⟨?_, ?_, by decide⟩
  · rintro ⟨h1, h2⟩
    have hne : ¬s.isEmpty = true := by
      intro h
      rw [String.isEmpty_iff] at h
      subst h
      simp at h1
    constructor
    · simp [validateHash, h1]
      simpa using h2
    · simp [validatePaymentID, hne, h1]
      simpa using h2
  · intro h
    refine ⟨by simp [validateHash, h], ?_⟩
    intro hne
    have hne' : ¬s.isEmpty = true := by
      rw [String.isEmpty_iff]; exact hne
    simp [validatePaymentID, hne', h]

/-- C9 witness: a concrete 64-character string of letters z (alphanumeric
but not hexadecimal) passes both validators. -/
theorem validateHash_paymentID_alnum64_witness :
    validateHash sixtyFourZs = SUCCESS ∧ validatePaymentID sixtyFourZs = SUCCESS :=
  (validateHash_paymentID_alnum64 sixtyFourZs).1 ⟨by decide, by decide⟩

/-- Helper: the embedded decimal string of a nonzero n is the reverse of
its little-endian base-10 digits. -/
lemma decimalString_eq (n : Nat) (hn : n ≠ 0) :
    decimalString n = (Nat.digits 10 n).reverse := by
  rw [decimalString, if_neg hn, decimalDigitsRev_eq_digits n n (Nat.le_refl n)]

/-- C10: validateOptimizeTarget accepts an absent target, and accepts a
present target exactly when it equals its leading decimal digit times
10 ^ (number of decimal digits - 1), i.e. all digits after the first are
zero; otherwise it reports AMOUNT_UGLY. 20000 is accepted, 23456 rejected. -/
theorem validateOptimizeTarget_spec :
    validateOptimizeTarget none = SUCCESS ∧
    (∀ t : Nat, validateOptimizeTarget (some t) = SUCCESS ↔
      t = (Nat.digits 10 t).getLast?.getD 0 * 10 ^ ((Nat.digits 10 t).length - 1)) ∧
    validateOptimizeTarget (some 20000) = SUCCESS ∧
    validateOptimizeTarget (some 23456) = AMOUNT_UGLY := by
  refine ⟨rfl, ?_, by decide, by decide⟩
  intro t
  by_cases h0 : t = 0
  · subst h0
    simp [validateOptimizeTarget, decimalString]
  · have hd : decimalString t = (Nat.digits 10 t).reverse := decimalString_eq t h0
    have hhead : (decimalString t).headD 0 = (Nat.digits 10 t).getLast?.getD 0 := by
      rw [hd, List.headD_eq_head?, List.head?_reverse]
    have hlen : (decimalString t).length = (Nat.digits 10 t).length := by
      rw [hd, List.length_reverse]
    simp only [validateOptimizeTarget, hhead, hlen, ne_eq, ite_not]
    constructor
    · intro h
      by_contra hne
      rw [if_neg hne] at h
      exact absurd h (by simp)
    · intro h
      rw [if_pos h]

/-- C7: validateTransaction returns SUCCESS exactly when all seven checks
succeed, and otherwise returns the error of the first failing check in
source order (destinations, integrated addresses, source subwallets,
amount, mixin, payment ID, change address); no failing check's error is
dropped. The validation chain is a pure function: it uses no scheduling
primitive. -/
theorem validateTransaction_spec (c : TransactionChecks) :
    (validateTransaction c = SUCCESS ↔ ∀ e ∈ checkList c, e = SUCCESS) ∧
    validateTransaction c = firstFailure (checkList c) := by
  obtain ⟨d, i, sa, a, m, p, ch⟩ := c
  simp only [validateTransaction, checkList, firstFailure]
  split_ifs with h1 h2 h3 h4 h5 h6 h7 <;>
    simp_all [firstFailure]

/-- C8: validateAmount throws (models the C++ std::runtime_error) exactly
when no fee type is specified, and delivers every operational failure —
fee too small, uint64 amount-sum overflow, insufficient balance — and
success as a returned typed value, never as a throw. -/
theorem validateAmount_spec (destinations : List (String × Nat)) (fee : FeeType)
    (availableBalance minFeePerByte : Nat) :
    (validateAmount destinations fee availableBalance minFeePerByte =
        Except.error "Programmer error: fee type not specified" ↔
      fee.isFeePerByte = false ∧ fee.isFixedFee = false ∧ fee.isMinimumFee = false) ∧
    ((fee.isFeePerByte || fee.isFixedFee || fee.isMinimumFee) = true →
      ∃ code, validateAmount destinations fee availableBalance minFeePerByte =
        Except.ok code) ∧
    (fee.isFeePerByte = true → fee.feePerByte < minFeePerByte →
      validateAmount destinations fee availableBalance minFeePerByte =
        Except.ok FEE_TOO_SMALL) ∧
    ((fee.isFeePerByte = true → minFeePerByte ≤ fee.feePerByte) →
      (fee.isFeePerByte || fee.isFixedFee || fee.isMinimumFee) = true →
      sumWillOverflow (feeAmounts destinations fee) = true →
      validateAmount destinations fee availableBalance minFeePerByte =
        Except.ok WILL_OVERFLOW) ∧
    ((fee.isFeePerByte = true → minFeePerByte ≤ fee.feePerByte) →
      (fee.isFeePerByte || fee.isFixedFee || fee.isMinimumFee) = true →
      sumWillOverflow (feeAmounts destinations fee) = false →
      availableBalance < totalWithFee destinations fee →
      validateAmount destinations fee availableBalance minFeePerByte =
        Except.ok NOT_ENOUGH_BALANCE) ∧
    ((fee.isFeePerByte = true → minFeePerByte ≤ fee.feePerByte) →
      (fee.isFeePerByte || fee.isFixedFee || fee.isMinimumFee) = true →
      sumWillOverflow (feeAmounts destinations fee) = false →
      totalWithFee destinations fee ≤ availableBalance →
      validateAmount destinations fee availableBalance minFeePerByte =
        Except.ok SUCCESS) := by
  simp only [validateAmount]
  split_ifs with h1 h2 h3 h4 <;>
    simp_all

/-- C8 witness: with no fee type specified validateAmount throws, and with a
fixed fee covered by the balance it returns SUCCESS as a typed value. -/
theorem validateAmount_spec_witness :
    validateAmount [] ⟨false, false, false, 0, 0⟩ 0 0 =
      Except.error "Programmer error: fee type not specified" ∧
    validateAmount [] ⟨true, false, false, 2, 0⟩ 5 0 = Except.ok SUCCESS :=
  ⟨((validateAmount_spec [] ⟨false, false, false, 0, 0⟩ 0 0).1).mpr ⟨rfl, rfl, rfl⟩,
   (validateAmount_spec [] ⟨true, false, false, 2, 0⟩ 5 0).2.2.2.2.2
     (by simp) (by simp) (by decide) (by decide)⟩

/-- Helper: the acquisition loop, started at check index k, returns a trace
of m waits followed by one clear, where the first m checks read false and
check m reads true. -/
lemma eventLockAcquireLoop_spec (obs : Nat → Bool) :
    ∀ (fuel k : Nat) (t : List EventOp),
      eventLockAcquireLoop obs k fuel = some t →
      ∃ m, (∀ j, j < m → obs (k + j) = false) ∧ obs (k + m) = true ∧
        t = List.replicate m EventOp.waitOp ++ [EventOp.clearOp] := by
  intro fuel
  induction fuel with
  | zero => intro k t h; simp [eventLockAcquireLoop] at h
  | succ fuel ih =>
    intro k t h
    rw [eventLockAcquireLoop] at h
    by_cases hk : obs k = true
    · rw [if_pos hk] at h
      refine ⟨0, fun j hj => absurd hj (Nat.not_lt_zero j), ?_, ?_⟩
      · simpa using hk
      · simpa using h.symm
    · rw [if_neg hk, Option.map_eq_some'] at h
      obtain ⟨t0, ht0, rfl⟩ := h
      obtain ⟨m0, hfalse, htrue, rfl⟩ := ih (k + 1) t0 ht0
      refine ⟨m0 + 1, ?_, ?_, ?_⟩
      · intro j hj
        match j with
        | 0 => simpa using Bool.eq_false_iff.mpr hk
        | j + 1 =>
          have : k + (j + 1) = k + 1 + j := by omega
          rw [this]
          exact hfalse j (by omega)
      · have : k + (m0 + 1) = k + 1 + m0 := by omega
        rw [this]; exact htrue
      · simp [List.replicate_succ]

/-- C1: a successfully terminating EventLock constructor run makes exactly m
wait calls — one for each check that read the event flag false — followed by
a single clear call, made only after a check read the flag true; the trace
ends with that one clear, so the constructor returns only with the event
observed true and then cleared. -/
theorem eventLockCtor_spec (obs : Nat → Bool) (fuel : Nat) (t : List EventOp)
    (h : eventLockCtor obs fuel = some t) :
    ∃ m, (∀ j, j < m → obs j = false) ∧ obs m = true ∧
      t = List.replicate m EventOp.waitOp ++ [EventOp.clearOp] ∧
      t.count EventOp.clearOp = 1 ∧
      t.getLast? = some EventOp.clearOp := by
  obtain ⟨m, hfalse, htrue, rfl⟩ := eventLockAcquireLoop_spec obs fuel 0 t h
  refine ⟨m, fun j hj => by simpa using hfalse j hj, by simpa using htrue, rfl, ?_, ?_⟩
  · simp [List.count_append, List.count_replicate]
  · simp

/-- C1 witness: with the flag reading false at the first two checks and true
at the third, the constructor runs wait, wait, clear. -/
theorem eventLockCtor_spec_witness :
    eventLockCtor obsAtTwo 4 = some [EventOp.waitOp, EventOp.waitOp, EventOp.clearOp] ∧
    ∃ m, (∀ j, j < m → obsAtTwo j = false) ∧ obsAtTwo m = true ∧
      [EventOp.waitOp, EventOp.waitOp, EventOp.clearOp] =
        List.replicate m EventOp.waitOp ++ [EventOp.clearOp] ∧
      List.count EventOp.clearOp [EventOp.waitOp, EventOp.waitOp, EventOp.clearOp] = 1 ∧
      List.getLast? [EventOp.waitOp, EventOp.waitOp, EventOp.clearOp] =
        some EventOp.clearOp :=
  ⟨by decide, eventLockCtor_spec obsAtTwo 4 _ (by decide)⟩

/-- C2: the EventLock destructor is unconditionally a single event.set()
call, so whenever an EventLock leaves scope — the destructor being the one
thing C++ runs on every exit path — the guarded event is left set (flag
true), never in the cleared (held) state, and every context then waiting on
the event is resumed in FIFO order. -/
theorem eventLockDtor_spec (e : Event) :
    eventLockDtor e = e.set ∧
    (eventLockDtor e).1.get = true ∧
    (eventLockDtor e).1.waiters = [] ∧
    (eventLockDtor e).2 = e.waiters :=
  ⟨rfl, rfl, rfl, rfl⟩

/-- C4: a context that calls wait while the flag is false suspends, sits in
the queue exactly once, is resumed exactly once by the next set, and a
further set without a fresh wait resumes nothing; a context that calls wait
while the flag is true returns immediately with nothing changed and without
suspending. -/
theorem event_wait_set_spec (e : Event) (ctx : Nat) :
    (e.get = false → ctx ∉ e.waiters →
      (e.wait ctx).2 = true ∧
      (e.wait ctx).1.waiters.count ctx = 1 ∧
      ((e.wait ctx).1.set).2.count ctx = 1 ∧
      (((e.wait ctx).1.set).1.set).2 = []) ∧
    (e.get = true → e.wait ctx = (e, false)) := by
  constructor
  · intro hflag hmem
    have hw : e.wait ctx = ({ e with waiters := e.waiters ++ [ctx] }, true) := by
      simp [Event.wait, Event.get] at hflag ⊢
      simp [hflag]
    rw [hw]
    refine ⟨rfl, ?_, ?_, rfl⟩
    · simp [List.count_append, List.count_eq_zero.mpr hmem]
    · simp [Event.set, List.count_append, List.count_eq_zero.mpr hmem]
  · intro hflag
    simp [Event.wait, Event.get] at hflag ⊢
    simp [hflag]

/-- C4 witness: on a concrete cleared event, context 7 suspends, is queued
once, and is resumed exactly once by the next set; on a concrete set event
it returns immediately without suspending. -/
theorem event_wait_set_spec_witness :
    ((Event.wait ⟨false, []⟩ 7).2 = true ∧
      (Event.wait ⟨false, []⟩ 7).1.waiters.count 7 = 1 ∧
      ((Event.wait ⟨false, []⟩ 7).1.set).2.count 7 = 1 ∧
      (((Event.wait ⟨false, []⟩ 7).1.set).1.set).2 = []) ∧
    Event.wait ⟨true, []⟩ 7 = (⟨true, []⟩, false) :=
  ⟨(event_wait_set_spec ⟨false, []⟩ 7).1 rfl (by decide),
   (event_wait_set_spec ⟨true, []⟩ 7).2 rfl⟩

/-- C5: connect resolves every possible completion in exactly one of three
ways: an owning TcpConnection wrapping the live socket on OS success, a
typed connection error carrying the OS code on refusal or timeout, and a
cancellation error when the waiting context is interrupted; the function is
total, so no completion leaves it hanging. -/
theorem tcpConnector_connect_spec (outcome : ConnectOutcome) :
    (∃ sock, outcome = ConnectOutcome.success sock ∧
      TcpConnector.connect outcome = Except.ok { socket := some sock }) ∨
    (∃ code, (outcome = ConnectOutcome.refused code ∨
        outcome = ConnectOutcome.timedOut code) ∧
      TcpConnector.connect outcome =
        Except.error (ConnectError.connectionFailed code)) ∨
    (outcome = ConnectOutcome.interrupted ∧
      TcpConnector.connect outcome =
        Except.error ConnectError.operationCancelled) := by
  cases outcome with
  | success sock => exact Or.inl ⟨sock, rfl, rfl⟩
  | refused code => exact Or.inr (Or.inl ⟨code, Or.inl rfl, rfl⟩)
  | timedOut code => exact Or.inr (Or.inl ⟨code, Or.inr rfl, rfl⟩)
  | interrupted => exact Or.inr (Or.inr ⟨rfl, rfl⟩)

/-- C6: after a move the moved-from TcpConnector is unbound and holds no OS
resource, its destructor is a no-op, and destroying both source and
destination releases exactly the resources the source held — once each, no
double release, no leak; likewise for TcpConnection. -/
theorem tcp_move_release_once (src : TcpConnector) (conn : TcpConnection) :
    ((TcpConnector.moveFrom src).1.resource = none ∧
     (TcpConnector.moveFrom src).1.dispatcher = none ∧
     TcpConnector.destructorReleases (TcpConnector.moveFrom src).1 = [] ∧
     TcpConnector.destructorReleases (TcpConnector.moveFrom src).1 ++
       TcpConnector.destructorReleases (TcpConnector.moveFrom src).2 =
       TcpConnector.destructorReleases src) ∧
    ((TcpConnection.moveFrom conn).1.socket = none ∧
     TcpConnection.destructorReleases (TcpConnection.moveFrom conn).1 = [] ∧
     TcpConnection.destructorReleases (TcpConnection.moveFrom conn).1 ++
       TcpConnection.destructorReleases (TcpConnection.moveFrom conn).2 =
       TcpConnection.destructorReleases conn) :=
  ⟨⟨rfl, rfl, rfl, rfl⟩, rfl, rfl, rfl⟩

/-- Helper: acquiring and inSection are distinct phases, at the Bool level
the filters use. -/
lemma beq_acquiring_inSection :
    (CtxPhase.acquiring == CtxPhase.inSection) = false := rfl

/-- Helper: inSection matches itself at the Bool level the filters use. -/
lemma beq_inSection_inSection :
    (CtxPhase.inSection == CtxPhase.inSection) = true := rfl

/-- Helper: filtering for inSection entries removes everything a wake
produces, since woken contexts restart their acquisition loop. -/
lemma filter_inSection_map_acquiring (l : List Nat) :
    (l.map (fun w => (w, CtxPhase.acquiring))).filter
      (fun p => p.2 == CtxPhase.inSection) = [] := by
  induction l with
  | nil => rfl
  | cons a l ih =>
    rw [List.map_cons, List.filter_cons]
    simp only [beq_acquiring_inSection, Bool.false_eq_true, if_false]
    exact ih

/-- Helper: one scheduling slice preserves the mutual exclusion invariant. -/
lemma mutexInv_step {s : DispatcherState} (h : mutexInv s) :
    mutexInv (schedStep s) := by
  obtain ⟨h1, h2⟩ := h
  obtain ⟨fl, ew, rd, ent⟩ := s
  match rd with
  | [] => exact ⟨h1, h2⟩
  | (c, CtxPhase.acquiring) :: rest =>
    simp only [inSectionCount, List.filter_cons, beq_acquiring_inSection,
      Bool.false_eq_true, if_false] at h1 h2
    cases fl with
    | true =>
      have hrest : (rest.filter (fun p => p.2 == CtxPhase.inSection)).length = 0 :=
        h2 rfl
      constructor
      · simp [schedStep, inSectionCount, List.filter_append, hrest,
          List.filter_cons, beq_inSection_inSection]
      · intro hfl
        simp [schedStep] at hfl
    | false =>
      constructor
      · simpa [schedStep, inSectionCount, List.filter_cons,
          beq_acquiring_inSection] using h1
      · intro hfl
        simp [schedStep] at hfl
  | (c, CtxPhase.inSection) :: rest =>
    simp only [inSectionCount, List.filter_cons, beq_inSection_inSection,
      if_true] at h1 h2
    have hrest : (rest.filter (fun p => p.2 == CtxPhase.inSection)).length = 0 := by
      simp only [List.length_cons] at h1
      omega
    constructor
    · simp [schedStep, inSectionCount, List.filter_append, hrest,
        filter_inSection_map_acquiring]
    · intro
      simp [schedStep, inSectionCount, List.filter_append, hrest,
        filter_inSection_map_acquiring]

/-- Helper: the invariant holds in every contention start state: no context
is inside the guarded section. -/
lemma mutexInv_contendState (pending log : List Nat) :
    mutexInv (contendState pending log) := by
  constructor
  · simp [inSectionCount, contendState, filter_inSection_map_acquiring]
  · intro
    simp [inSectionCount, contendState, filter_inSection_map_acquiring]

/-- Helper: the invariant holds after any number of scheduling slices. -/
lemma mutexInv_iterate (s : DispatcherState) (h : mutexInv s) :
    ∀ k, mutexInv (schedStep^[k] s) := by
  intro k
  induction k with
  | zero => exact h
  | succ k ih => rw [Function.iterate_succ_apply']; exact mutexInv_step ih

/-- Helper: with the flag false, the contexts at the front of the ready
queue that are in their acquisition loop each run one slice and suspend
onto the event queue, in FIFO order. -/
lemma schedStep_drain (w : List Nat) :
    ∀ (tail : List (Nat × CtxPhase)) (ev log : List Nat),
      schedStep^[w.length]
        { flag := false, evWaiters := ev,
          ready := w.map (fun c => (c, CtxPhase.acquiring)) ++ tail,
          entered := log } =
      { flag := false, evWaiters := ev ++ w, ready := tail, entered := log } := by
  induction w with
  | nil => intro tail ev log; simp
  | cons c rest ih =>
    intro tail ev log
    rw [List.length_cons, Function.iterate_succ_apply]
    have hstep :
        schedStep
          { flag := false, evWaiters := ev,
            ready := (c :: rest).map (fun x => (x, CtxPhase.acquiring)) ++ tail,
            entered := log } =
        { flag := false, evWaiters := ev ++ [c],
          ready := rest.map (fun x => (x, CtxPhase.acquiring)) ++ tail,
          entered := log } := by
      simp [schedStep]
    rw [hstep, ih tail (ev ++ [c]) log]
    simp

/-- Helper: one full round of contention: the front context acquires the
lock and enters the guarded section, every other pending context suspends
onto the event queue in FIFO order, and the holder then releases, waking
them all; the system returns to a contention start state with one fewer
context and the entry log extended by the front context. -/
lemma contend_round (c : Nat) (rest log : List Nat) :
    schedStep^[rest.length + 2] (contendState (c :: rest) log) =
      contendState rest (log ++ [c]) := by
  have hsplit : rest.length + 2 = 1 + (rest.length + 1) := by omega
  rw [hsplit, Function.iterate_add_apply]
  have hsplit2 : rest.length + 1 = rest.length + 1 := rfl
  rw [Function.iterate_add_apply]
  have h1 :
      schedStep^[1] (contendState (c :: rest) log) =
      { flag := false, evWaiters := [],
        ready := rest.map (fun x => (x, CtxPhase.acquiring)) ++
          [(c, CtxPhase.inSection)],
        entered := log ++ [c] } := by
    simp [schedStep, contendState]
  rw [h1, schedStep_drain rest [(c, CtxPhase.inSection)] [] (log ++ [c])]
  simp [schedStep, contendState]

/-- Helper: the full contention run: every pending context passes through
the guarded section, in ready-queue (FIFO) order. -/
lemma contend_run :
    ∀ (pending log : List Nat),
      schedStep^[contendSteps pending.length] (contendState pending log) =
        contendState [] (log ++ pending) := by
  intro pending
  induction pending with
  | nil => intro log; simp [contendSteps]
  | cons c rest ih =>
    intro log
    have hlen : contendSteps (c :: rest).length =
        contendSteps rest.length + (rest.length + 2) := by
      simp [contendSteps]
    rw [hlen, Function.iterate_add_apply, contend_round, ih (log ++ [c])]
    simp

/-- C3: in the cooperative model of N contexts contending for one Event
through EventLock on a single Dispatcher, at most one context is ever
inside the guarded section at any point of the run, and after the run every
one of the N contexts has entered the guarded section exactly once, in the
FIFO order in which they queued — no starvation. -/
theorem eventLock_mutex_fifo (n : Nat) :
    (∀ k, mutexInv (schedStep^[k] (contendState (List.range n) []))) ∧
    schedStep^[contendSteps n] (contendState (List.range n) []) =
      { flag := true, evWaiters := [], ready := [], entered := List.range n } := by
  constructor
  · exact mutexInv_iterate _ (mutexInv_contendState _ _)
  · have h := contend_run (List.range n) []
    rw [List.length_range] at h
    rw [h]
    simp [contendState]

end Traaitt
